import Mathlib

/-!
Shallow embedding of `shardmanager.go` from the go-pgxshard repository
(package `pgxshard`): a client-side shard router over a list of
connection pools.

Modelling conventions:
- Go `int` is modelled as `Int` (the repository targets 64-bit platforms,
  where `int` is 64 bits; all values appearing here — `int32`/`int64` keys
  converted to `int`, `uint32` CRC values converted to `int`, slice
  lengths — are representable without wraparound, so no `% 2^64` is needed).
- Go's `%` on integers is truncated remainder (`Int.tmod`); division or
  remainder by zero is a run-time panic, modelled by the `GoResult.panicked`
  constructor.
- The dynamic `key any` parameter is modelled as the inductive `GoKey`
  mirroring the `switch key.(type)` arms of the source: `int`, `int32`,
  `int64`, `string` (kept as its byte sequence), and any other dynamic
  type (`other`).
- The external pooling collaborator `pgxpool` is opaque: a `Pool` carries
  its connection string and the outcome its `Ping` would produce;
  `pgxpool.New` is an explicit parameter `connect` of the embedded `New`.
- Go functions returning `(T, error)` become `GoResult T`; functions
  returning only `error` become `Option String` (`none` = nil error).
-/

/-- Outcome of evaluating a Go expression/function that may return an
error or panic at run time. -/
inductive GoResult (α : Type) where
  | ok (a : α)
  | err (msg : String)
  | panicked (msg : String)
deriving Repr, DecidableEq

/-- The dynamic type of the `key any` argument, one constructor per arm of
the `switch` in `defaultShardIndexFunc` plus `other` for every dynamic type
with no arm. A Go `string` key is carried as its byte sequence (the source
converts it with `[]byte(v)` before hashing). -/
inductive GoKey where
  | int (v : Int)
  | int32 (v : Int)
  | int64 (v : Int)
  | string (bytes : List Nat)
  | other
deriving Repr, DecidableEq

/-- Go's binary `%` on `int` operands: truncated remainder, panicking when
the divisor is zero (Go run-time error "integer divide by zero"). -/
def goMod (a b : Int) : GoResult Int :=
  if b = 0 then .panicked "runtime error: integer divide by zero"
  else .ok (a.tmod b)

/-- One step of the bitwise (reflected, LSB-first) CRC-32 update for the
IEEE polynomial 0xEDB88320, as computed by Go's `hash/crc32` for
`crc32.IEEETable`. -/
def crc32Step (crc : Nat) : Nat :=
  if crc % 2 = 1 then Nat.xor (crc / 2) 0xEDB88320 else crc / 2

/-- Fold one input byte into the running CRC: xor the byte in, then apply
eight polynomial-division steps. -/
def crc32Byte (crc b : Nat) : Nat :=
  crc32Step (crc32Step (crc32Step (crc32Step
    (crc32Step (crc32Step (crc32Step (crc32Step (Nat.xor crc b))))))))

/-- Running CRC over a byte list, starting from an initial register. -/
def crc32Aux (crc : Nat) : List Nat → Nat
  | [] => crc
  | b :: rest => crc32Aux (crc32Byte crc b) rest

/-- `crc32.ChecksumIEEE` of Go's `hash/crc32` (external standard-library
collaborator of the source): CRC-32 with the IEEE polynomial, register
pre- and post-inverted. -/
def crc32ChecksumIEEE (bytes : List Nat) : Nat :=
  Nat.xor (crc32Aux 0xFFFFFFFF bytes) 0xFFFFFFFF

/-- `defaultShardIndexFunc` of `shardmanager.go`: dispatch on the dynamic
type of the key; integer keys are reduced `v % numShards` (the `int32` and
`int64` arms convert with `int(v)`, value-preserving on 64-bit), string
keys are hashed with `crc32.ChecksumIEEE` and the checksum (converted to
`int`, hence non-negative) is reduced `% numShards`; any other type yields
the error "shard key type not supported". -/
def defaultShardIndexFunc : GoKey → Int → GoResult Int
  | .int v, numShards => goMod v numShards
  | .int32 v, numShards => goMod v numShards
  | .int64 v, numShards => goMod v numShards
  | .string bytes, numShards => goMod (crc32ChecksumIEEE bytes) numShards
  | .other, _ => .err "shard key type not supported"

/-- The external `pgxpool.Pool` collaborator, reduced to what the source
observes of it: its connection string and the error (if any) that its
`Ping` method reports. -/
structure Pool where
  connString : String
  pingError : Option String
deriving Repr, DecidableEq

/-- `ShardManager` of `shardmanager.go` (the `sync.Mutex` field has no
pure-state content; the lock discipline of the method bodies is modelled
separately by their `SyncOp` traces below). -/
structure ShardManager where
  shards : List Pool
  numShards : Int
  shardIndexFunc : GoKey → Int → GoResult Int

/-- Events observable during `New`: a connection attempt for the target at
an index, a successfully opened pool at an index, and a pool close at an
index. The source's `New` never emits `closed`. -/
inductive PoolEvent where
  | attempted (i : Nat)
  | opened (i : Nat)
  | closed (i : Nat)
deriving Repr, DecidableEq

/-- The connection loop of `New`, instrumented with its event trace: for
each target in order (indices counted from `i`), call the collaborator
`connect` (= `pgxpool.New`); on the first failure return
"failed to connect to shard i: cause" at once — no later target is
attempted and no already-opened pool is closed. -/
def connectShards (connect : String → Except String Pool) :
    Nat → List String → Except String (List Pool) × List PoolEvent
  | _, [] => (.ok [], [])
  | i, connStr :: rest =>
    match connect connStr with
    | .error e => (.error s!"failed to connect to shard {i}: {e}", [.attempted i])
    | .ok db =>
      ((connectShards connect (i + 1) rest).1.map (db :: ·),
        .attempted i :: .opened i :: (connectShards connect (i + 1) rest).2)

/-- `New` of `shardmanager.go`: open one pool per connection string, in
order, failing fast; on success the manager holds the pools in target
order, `numShards = len(shards)`, and the default strategy is installed. -/
def New (connect : String → Except String Pool)
    (connectionStrings : List String) : Except String ShardManager :=
  match (connectShards connect 0 connectionStrings).1 with
  | .error e => .error e
  | .ok shards =>
    .ok { shards := shards
          numShards := (shards.length : Int)
          shardIndexFunc := defaultShardIndexFunc }

/-- The event trace produced by a call to `New` (projection of the
instrumented loop). -/
def NewEvents (connect : String → Except String Pool)
    (connectionStrings : List String) : List PoolEvent :=
  (connectShards connect 0 connectionStrings).2

/-- `SetShardIndexFunc` of `shardmanager.go`: replace the stored strategy
(the lock/unlock around the store is modelled by `setShardIndexFuncOps`). -/
def ShardManager.SetShardIndexFunc (s : ShardManager)
    (f : GoKey → Int → GoResult Int) : ShardManager :=
  { s with shardIndexFunc := f }

/-- `Shard` of `shardmanager.go`: evaluate `s.shardIndexFunc(key,
s.numShards)`; propagate its error (or panic); reject an index with
`index < 0 || index > len(s.shards)-1`; otherwise return the pool at that
index (`s.shards[index]`, whose out-of-bounds panic is unreachable after
the check). -/
def ShardManager.Shard (s : ShardManager) (key : GoKey) : GoResult Pool :=
  match s.shardIndexFunc key s.numShards with
  | .panicked msg => .panicked msg
  | .err e => .err e
  | .ok index =>
    if index < 0 ∨ index > (s.shards.length : Int) - 1 then
      .err s!"shard index {index} is out of range"
    else
      match s.shards.get? index.toNat with
      | some pool => .ok pool
      | none => .panicked "runtime error: index out of range"

/-- `Shards` of `shardmanager.go`: return the shard slice (the source also
returns a nil error, constant). -/
def ShardManager.Shards (s : ShardManager) : List Pool :=
  s.shards

/-- The ping loop of `Ping`, instrumented with the list of (0-based)
positions actually pinged: each shard in order is pinged; the first
non-nil error is returned at once. -/
def pingShards : Nat → List Pool → Option String × List Nat
  | _, [] => (none, [])
  | i, pool :: rest =>
    match pool.pingError with
    | some e => (some e, [i])
    | none =>
      ((pingShards (i + 1) rest).1, i :: (pingShards (i + 1) rest).2)

/-- `Ping` of `shardmanager.go`: ping every shard in order, returning the
first failure unchanged (`return err`), `none` (nil) when all succeed. -/
def ShardManager.Ping (s : ShardManager) : Option String :=
  (pingShards 0 s.shards).1

/-- The positions pinged by a call to `Ping`. -/
def ShardManager.PingTrace (s : ShardManager) : List Nat :=
  (pingShards 0 s.shards).2

/-- `Close` of `shardmanager.go`: close every pool; always returns nil. -/
def ShardManager.Close (_s : ShardManager) : Option String :=
  none

/-!
Synchronization model. The manager's only lock is `s.mu`. Each method body
is abstracted to the sequence of lock operations and accesses to the
mutex-guarded fields it performs, read off the source line by line.
-/

/-- A primitive synchronization-relevant action of a method body. -/
inductive SyncOp where
  | lock
  | unlock
  | readStrategy
  | writeStrategy
  | readNumShards
  | readShards
deriving Repr, DecidableEq

/-- Body of `SetShardIndexFunc`: `s.mu.Lock()`, store to
`s.shardIndexFunc`, deferred `s.mu.Unlock()`. -/
def setShardIndexFuncOps : List SyncOp :=
  [.lock, .writeStrategy, .unlock]

/-- Body of `Shard`: read `s.shardIndexFunc` and `s.numShards` (the call
`s.shardIndexFunc(key, s.numShards)`), then read `s.shards` for the bounds
check and the indexing. The body takes no lock. -/
def shardOps : List SyncOp :=
  [.readStrategy, .readNumShards, .readShards]

/-- Accesses to the state shared with strategy replacement: the strategy
reference itself and the shard count snapshotted alongside it. -/
def strategyAccess : SyncOp → Bool
  | .readStrategy => true
  | .writeStrategy => true
  | .readNumShards => true
  | _ => false

/-- `guardedFrom d ops` holds when, starting at lock depth `d`, every
strategy/shard-count access in `ops` happens while the lock is held. -/
def guardedFrom : Nat → List SyncOp → Bool
  | _, [] => true
  | d, .lock :: rest => guardedFrom (d + 1) rest
  | d, .unlock :: rest => guardedFrom (d - 1) rest
  | d, op :: rest => (!strategyAccess op || decide (0 < d)) && guardedFrom d rest

/-- A method body's strategy accesses are all under the manager's lock. -/
def guarded (ops : List SyncOp) : Bool :=
  guardedFrom 0 ops

/-!
Concrete collaborators used to evaluate the embedding at specific inputs.
-/

/-- A reachable pool for a given target, healthy at ping time. -/
def poolOf (s : String) : Pool :=
  { connString := s, pingError := none }

/-- A collaborator for which every connection target is reachable. -/
def connectAllOK : String → Except String Pool :=
  fun s => .ok (poolOf s)

/-- A collaborator for which exactly the target "B" is unreachable. -/
def connectFailB : String → Except String Pool :=
  fun s => if s = "B" then .error "boom" else .ok (poolOf s)

/-- A pool whose ping reports the error "unreachable". -/
def poolBad : Pool :=
  { connString := "bad", pingError := some "unreachable" }

/-- The manager `New` yields for an empty target sequence: zero shards,
default strategy. -/
def emptyManager : ShardManager :=
  ⟨[], 0, defaultShardIndexFunc⟩

/-- A one-shard manager with the default strategy. -/
def oneShardManager : ShardManager :=
  ⟨[poolOf "A"], 1, defaultShardIndexFunc⟩

/-- A one-shard manager with a custom strategy constantly answering 5. -/
def oneShardConst5 : ShardManager :=
  ⟨[poolOf "A"], 1, fun _ _ => .ok 5⟩

/-- A two-shard manager, both shards healthy. -/
def healthyManager : ShardManager :=
  ⟨[poolOf "A", poolOf "B"], 2, defaultShardIndexFunc⟩

/-- A two-shard manager whose position-0 shard is unreachable. -/
def badAt0Manager : ShardManager :=
  ⟨[poolBad, poolOf "ok"], 2, defaultShardIndexFunc⟩

/-- A two-shard manager whose position-1 shard is unreachable. -/
def badAt1Manager : ShardManager :=
  ⟨[poolOf "ok", poolBad], 2, defaultShardIndexFunc⟩

/-!
Helper lemmas about the connection and ping loops.
-/

/-- When every target connects, the loop returns the pools in target
order. -/
theorem connectShards_fst_all_ok (connect : String → Except String Pool)
    (pool : String → Pool) :
    ∀ (ts : List String) (i : Nat), (∀ t ∈ ts, connect t = .ok (pool t)) →
      (connectShards connect i ts).1 = .ok (ts.map pool) := by
  intro ts
  induction ts with
  | nil => intro i _; rfl
  | cons c rest ih =>
    intro i h
    have hc : connect c = .ok (pool c) := h c (List.mem_cons_self c rest)
    have hrest : ∀ t ∈ rest, connect t = .ok (pool t) :=
      fun t ht => h t (List.mem_cons_of_mem c ht)
    simp only [connectShards, hc]
    rw [ih (i + 1) hrest]
    rfl

/-- When the targets before an unreachable one all connect, the loop fails
with the message naming the unreachable target's absolute position, and no
position after it is attempted. -/
theorem connectShards_first_fail (connect : String → Except String Pool)
    (t : String) (e : String) (ht : connect t = .error e) :
    ∀ (before after : List String) (i p : Nat),
      (∀ b ∈ before, ∃ pl, connect b = .ok pl) → i + before.length = p →
      (connectShards connect i (before ++ t :: after)).1 =
          .error s!"failed to connect to shard {p}: {e}" ∧
        ∀ j, PoolEvent.attempted j ∈
          (connectShards connect i (before ++ t :: after)).2 → j ≤ p := by
  intro before
  induction before with
  | nil =>
    intro after i p _ hp
    simp only [List.length_nil, Nat.add_zero] at hp
    subst hp
    constructor
    · simp only [List.nil_append, connectShards, ht]
    · intro j hj
      simp only [List.nil_append, connectShards, ht, List.mem_singleton] at hj
      cases hj
      exact Nat.le_refl _
  | cons b rest ih =>
    intro after i p h hp
    obtain ⟨pl, hb⟩ := h b (List.mem_cons_self b rest)
    have hrest : ∀ x ∈ rest, ∃ y, connect x = .ok y :=
      fun x hx => h x (List.mem_cons_of_mem b hx)
    have hp' : (i + 1) + rest.length = p := by
      simp only [List.length_cons] at hp
      omega
    obtain ⟨ih1, ih2⟩ := ih after (i + 1) p hrest hp'
    constructor
    · simp only [List.cons_append, connectShards, hb, List.append_eq]
      rw [ih1]
      rfl
    · intro j hj
      simp only [List.cons_append, connectShards, hb, List.mem_cons] at hj
      rcases hj with h1 | h1 | h1
      · rw [show j = i from by injection h1]
        omega
      · exact absurd h1 (by simp)
      · exact ih2 j h1

/-- When every pool pings successfully, the loop reports no error and
visits every position. -/
theorem pingShards_all_ok :
    ∀ (ps : List Pool) (i : Nat), (∀ p ∈ ps, p.pingError = none) →
      pingShards i ps = (none, List.range' i ps.length) := by
  intro ps
  induction ps with
  | nil => intro i _; rfl
  | cons q rest ih =>
    intro i h
    have hq : q.pingError = none := h q (List.mem_cons_self q rest)
    have hrest : ∀ p ∈ rest, p.pingError = none :=
      fun p hp => h p (List.mem_cons_of_mem q hp)
    simp only [pingShards, hq, ih (i + 1) hrest, List.length_cons, List.range']

/-- When the pools before a failing one are healthy, the loop returns that
pool's own error unchanged and visits exactly the positions up to it. -/
theorem pingShards_first_fail (bad : Pool) (e : String)
    (he : bad.pingError = some e) :
    ∀ (before after : List Pool) (i : Nat),
      (∀ b ∈ before, b.pingError = none) →
      pingShards i (before ++ bad :: after) =
        (some e, List.range' i (before.length + 1)) := by
  intro before
  induction before with
  | nil =>
    intro after i _
    simp only [List.nil_append, pingShards, he, List.length_nil, List.range']
  | cons b rest ih =>
    intro after i h
    have hb : b.pingError = none := h b (List.mem_cons_self b rest)
    have hrest : ∀ x ∈ rest, x.pingError = none :=
      fun x hx => h x (List.mem_cons_of_mem b hx)
    simp only [List.cons_append, pingShards, hb, List.append_eq]
    rw [ih after (i + 1) hrest]
    simp [List.length_cons, List.range']


/-!
Claims.
-/

/-- C1: constructing with an empty target sequence succeeds and yields a
manager with zero shards — but a subsequent `Shard` lookup with an integer
or text key does not fail with a routing error: `defaultShardIndexFunc`
computes `key % 0`, a run-time integer-divide-by-zero panic, so the lookup
crashes. Only an unsupported key shape fails with an error (and with the
unsupported-key error, not an out-of-range one). -/
theorem C1_zero_shards_lookup_panics :
    New connectAllOK [] = .ok emptyManager ∧
    emptyManager.Shard (.int 7) =
      .panicked "runtime error: integer divide by zero" ∧
    emptyManager.Shard (.string [117, 115, 101, 114]) =
      .panicked "runtime error: integer divide by zero" ∧
    emptyManager.Shard .other = .err "shard key type not supported" :=
  ⟨rfl, rfl, rfl, rfl⟩

/-- C2 counterexample: at key `-1` and shard count `3` the default strategy
succeeds with index `-1` (Go's truncated remainder), which is negative and
differs from the mathematical `-1 mod 3 = 2`, so the returned index does
not lie in `[0, 3)`. -/
theorem C2_negative_key_counterexample :
    defaultShardIndexFunc (.int (-1)) 3 = .ok (-1) ∧
    (-1 : Int) < 0 ∧ (-1 : Int) % 3 = 2 := by
  decide

/-- C2 (amended): for every shard count N ≥ 1 and integer key k of any
supported width, the default strategy succeeds and returns Go's truncated
remainder of k by N, which is `< N`; for non-negative k this equals the
mathematical `k mod N` and lies in `[0, N)` — negative keys may yield a
negative index. -/
theorem C2_default_int_mod (k n : Int) (h : 1 ≤ n) :
    defaultShardIndexFunc (.int k) n = .ok (k.tmod n) ∧
    defaultShardIndexFunc (.int32 k) n = .ok (k.tmod n) ∧
    defaultShardIndexFunc (.int64 k) n = .ok (k.tmod n) ∧
    k.tmod n < n ∧
    (0 ≤ k → k.tmod n = k % n ∧ 0 ≤ k.tmod n) := by
  have hn : ¬(n = 0) := by omega
  refine ⟨?_, ?_, ?_, Int.tmod_lt_of_pos k (by omega),
    fun hk => ⟨Int.tmod_eq_emod hk (by omega), Int.tmod_nonneg n hk⟩⟩
  all_goals simp [defaultShardIndexFunc, goMod, hn]

/-- C2 witness: the amended statement evaluated at key 7 and 3 shards. -/
theorem C2_default_int_mod_witness :
    defaultShardIndexFunc (.int 7) 3 = .ok (Int.tmod 7 3) ∧
    Int.tmod 7 3 = 7 % 3 ∧ 0 ≤ Int.tmod 7 3 ∧ Int.tmod 7 3 < 3 := by
  have h := C2_default_int_mod 7 3 (by decide)
  have h2 := h.2.2.2.2 (by decide)
  exact ⟨h.1, h2.1, h2.2, h.2.2.2.1⟩

/-- C3: when the active strategy returns an index outside
`[0, numShards)` (for a manager whose `numShards` matches its shard list,
as construction guarantees), `Shard` fails with the
shard-index-out-of-range error and returns no pool — it neither indexes
the list nor clamps the index. -/
theorem C3_out_of_range_rejected (m : ShardManager) (key : GoKey) (i : Int)
    (hinv : m.numShards = (m.shards.length : Int))
    (hf : m.shardIndexFunc key m.numShards = .ok i)
    (hout : i < 0 ∨ m.numShards ≤ i) :
    m.Shard key = .err s!"shard index {i} is out of range" := by
  unfold ShardManager.Shard
  simp only [hf]
  have hcond : i < 0 ∨ i > (m.shards.length : Int) - 1 := by
    rcases hout with h1 | h1
    · exact Or.inl h1
    · exact Or.inr (by omega)
  rw [if_pos hcond]

/-- C3 witness: a custom strategy constantly returning 5 on a one-shard
manager makes `Shard` fail with the out-of-range error. -/
theorem C3_out_of_range_rejected_witness :
    oneShardConst5.Shard (.int 0) = .err "shard index 5 is out of range" := by
  have h := C3_out_of_range_rejected oneShardConst5 (.int 0) 5 rfl rfl
    (Or.inr (by decide))
  exact h.trans (by decide)

set_option maxRecDepth 40000 in
/-- C4: for every text key (byte sequence) and shard count N ≥ 1, the
default strategy succeeds with `CRC32-IEEE(bytes) mod N`, which lies in
`[0, N)`; the strategy is a pure function, hence deterministic, and the
checksum is bit-exact per the IEEE polynomial (witnessed by the standard
CRC-32 check value: the bytes of "123456789" hash to 0xCBF43926). -/
theorem C4_text_key_crc32 (bytes : List Nat) (n : Int) (h : 1 ≤ n) :
    defaultShardIndexFunc (.string bytes) n =
      .ok ((crc32ChecksumIEEE bytes : Int) % n) ∧
    0 ≤ (crc32ChecksumIEEE bytes : Int) % n ∧
    (crc32ChecksumIEEE bytes : Int) % n < n ∧
    crc32ChecksumIEEE [49, 50, 51, 52, 53, 54, 55, 56, 57] = 0xCBF43926 := by
  have hn : ¬(n = 0) := by omega
  have hc : (crc32ChecksumIEEE bytes : Int).tmod n =
      (crc32ChecksumIEEE bytes : Int) % n :=
    Int.tmod_eq_emod (by omega) (by omega)
  refine ⟨?_, Int.emod_nonneg _ (by omega), Int.emod_lt_of_pos _ (by omega), ?_⟩
  · simp [defaultShardIndexFunc, goMod, hn, hc]
  · decide

/-- C4 witness: the text key "user-42" (its UTF-8 bytes) with 2 shards. -/
theorem C4_text_key_crc32_witness :
    defaultShardIndexFunc (.string [117, 115, 101, 114, 45, 52, 50]) 2 =
      .ok ((crc32ChecksumIEEE [117, 115, 101, 114, 45, 52, 50] : Int) % 2) ∧
    0 ≤ (crc32ChecksumIEEE [117, 115, 101, 114, 45, 52, 50] : Int) % 2 ∧
    (crc32ChecksumIEEE [117, 115, 101, 114, 45, 52, 50] : Int) % 2 < 2 ∧
    crc32ChecksumIEEE [49, 50, 51, 52, 53, 54, 55, 56, 57] = 0xCBF43926 :=
  C4_text_key_crc32 [117, 115, 101, 114, 45, 52, 50] 2 (by decide)

/-- C5: constructing with K all-reachable targets yields a manager whose
shard list is the pools in target order (indices 0..K-1), whose
`numShards` is K, and whose strategy is the default one; `Shards` returns
exactly that construction-ordered list (it is a pure read: no lookup
changes it). -/
theorem C5_construction_order (connect : String → Except String Pool)
    (targets : List String) (pool : String → Pool)
    (h : ∀ t ∈ targets, connect t = .ok (pool t)) :
    New connect targets =
      .ok ⟨targets.map pool, (targets.length : Int), defaultShardIndexFunc⟩ ∧
    ShardManager.Shards
        ⟨targets.map pool, (targets.length : Int), defaultShardIndexFunc⟩ =
      targets.map pool := by
  constructor
  · unfold New
    rw [connectShards_fst_all_ok connect pool targets 0 h]
    simp [List.length_map]
  · rfl

/-- C5 witness: three reachable targets A, B, C. -/
theorem C5_construction_order_witness :
    New connectAllOK ["A", "B", "C"] =
      .ok ⟨[poolOf "A", poolOf "B", poolOf "C"], 3, defaultShardIndexFunc⟩ ∧
    ShardManager.Shards
        ⟨[poolOf "A", poolOf "B", poolOf "C"], 3, defaultShardIndexFunc⟩ =
      [poolOf "A", poolOf "B", poolOf "C"] :=
  C5_construction_order connectAllOK ["A", "B", "C"] poolOf (fun _ _ => rfl)

/-- C6: when the targets before position p all connect and the target at
position p does not, construction fails with the error naming position p
and the underlying cause, no manager is returned, and no target after
position p is attempted (every attempted position in the trace is ≤ p). -/
theorem C6_fail_fast_position (connect : String → Except String Pool)
    (before : List String) (t : String) (after : List String)
    (e : String) (p : Nat)
    (hbefore : ∀ b ∈ before, ∃ pl, connect b = .ok pl)
    (hfail : connect t = .error e) (hp : before.length = p) :
    New connect (before ++ t :: after) =
      .error s!"failed to connect to shard {p}: {e}" ∧
    ∀ j, PoolEvent.attempted j ∈ NewEvents connect (before ++ t :: after) →
      j ≤ p := by
  obtain ⟨h1, h2⟩ := connectShards_first_fail connect t e hfail before after 0 p
    hbefore (by omega)
  constructor
  · unfold New
    rw [h1]
  · intro j hj
    exact h2 j hj

/-- C6 witness: targets A, B, C where B (position 1) is unreachable; the
trace shows only positions 0 and 1 were attempted. -/
theorem C6_fail_fast_position_witness :
    New connectFailB ["A", "B", "C"] =
      .error "failed to connect to shard 1: boom" ∧
    NewEvents connectFailB ["A", "B", "C"] =
      [.attempted 0, .opened 0, .attempted 1] := by
  constructor
  · have hbefore : ∀ b ∈ ["A"], ∃ pl, connectFailB b = Except.ok pl := by
      intro b hb
      simp only [List.mem_singleton] at hb
      subst hb
      exact ⟨poolOf "A", rfl⟩
    have h := (C6_fail_fast_position connectFailB ["A"] "B" ["C"] "boom" 1
      hbefore rfl rfl).1
    exact h.trans (congrArg Except.error (by decide))
  · rfl

/-- C7: when construction fails at position 1 after the pool for position
0 was opened, the construction error is returned immediately: the event
trace of `New` records the opened pool but contains no close event, so the
pool opened for the earlier target is leaked, not released. -/
theorem C7_partial_failure_leak :
    New connectFailB ["A", "B", "C"] =
      .error "failed to connect to shard 1: boom" ∧
    NewEvents connectFailB ["A", "B", "C"] =
      [.attempted 0, .opened 0, .attempted 1] ∧
    (NewEvents connectFailB ["A", "B", "C"]).contains (.opened 0) = true ∧
    (NewEvents connectFailB ["A", "B", "C"]).contains (.closed 0) = false := by
  refine ⟨by rfl, by rfl, by rfl, by rfl⟩

/-- C8 counterexample: two managers differing only in which position holds
the unreachable shard (position 0 versus position 1, the ping traces show
the failing position differs) produce the identical `Ping` error, so the
returned error does not identify which position failed. -/
theorem C8_ping_error_position_counterexample :
    badAt0Manager.Ping = some "unreachable" ∧
    badAt1Manager.Ping = some "unreachable" ∧
    badAt0Manager.PingTrace = [0] ∧
    badAt1Manager.PingTrace = [0, 1] :=
  ⟨rfl, rfl, rfl, rfl⟩

/-- C8 (amended): `Ping` returns no error when every shard is reachable;
with the first unreachable shard at position p it pings positions 0..p in
order, returns that shard's own ping error unchanged (without annotating
the position), and pings no shard after position p. -/
theorem C8_ping_first_failure :
    (∀ m : ShardManager, (∀ q ∈ m.shards, q.pingError = none) →
      m.Ping = none) ∧
    (∀ (m : ShardManager) (before : List Pool) (bad : Pool)
        (after : List Pool) (e : String),
      m.shards = before ++ bad :: after →
      (∀ b ∈ before, b.pingError = none) → bad.pingError = some e →
      m.Ping = some e ∧ m.PingTrace = List.range (before.length + 1)) := by
  constructor
  · intro m hm
    unfold ShardManager.Ping
    rw [pingShards_all_ok m.shards 0 hm]
  · intro m before bad after e hsh hok he
    have h := pingShards_first_fail bad e he before after 0 hok
    constructor
    · unfold ShardManager.Ping
      rw [hsh, h]
    · unfold ShardManager.PingTrace
      rw [hsh, h]
      simp [List.range_eq_range']

/-- C8 witness: an all-healthy two-shard manager pings clean; a manager
with the unreachable shard at position 1 pings positions 0 and 1 and
returns that shard's error. -/
theorem C8_ping_first_failure_witness :
    healthyManager.Ping = none ∧
    badAt1Manager.Ping = some "unreachable" ∧
    badAt1Manager.PingTrace = List.range 2 := by
  have h1 := C8_ping_first_failure.1 healthyManager (by decide)
  have h2 := C8_ping_first_failure.2 badAt1Manager [poolOf "ok"] poolBad []
    "unreachable" rfl (by decide) rfl
  exact ⟨h1, h2.1, h2.2⟩

/-- C9: for a key whose dynamic type is not a supported integer or text
type, the default strategy fails with the unsupported-key error at every
shard count, and `Shard` on a manager running the default strategy
propagates exactly that error, returning no pool. -/
theorem C9_unsupported_key (m : ShardManager)
    (h : m.shardIndexFunc = defaultShardIndexFunc) :
    defaultShardIndexFunc .other m.numShards =
      .err "shard key type not supported" ∧
    m.Shard .other = .err "shard key type not supported" := by
  constructor
  · rfl
  · unfold ShardManager.Shard
    rw [h]
    rfl

/-- C9 witness: an unsupported key on a one-shard default-strategy
manager. -/
theorem C9_unsupported_key_witness :
    defaultShardIndexFunc .other oneShardManager.numShards =
      .err "shard key type not supported" ∧
    oneShardManager.Shard .other = .err "shard key type not supported" :=
  C9_unsupported_key oneShardManager rfl

/-- C10: the strategy store in `SetShardIndexFunc` happens with the
manager's mutex held, but `Shard` reads the strategy reference and the
shard count with no lock operation at all in its body, so lookups are not
mutually exclusive with strategy replacement (a data race on
`shardIndexFunc`/`numShards`). -/
theorem C10_shard_reads_unlocked :
    guarded setShardIndexFuncOps = true ∧
    guarded shardOps = false ∧
    shardOps.contains SyncOp.lock = false ∧
    shardOps.contains SyncOp.readStrategy = true ∧
    shardOps.contains SyncOp.readNumShards = true := by
  decide
